import Mathlib

/-!
Shallow embedding of `vyper/context/types/function.py`: the contract
function type, its three constructors (`from_FunctionDef`, `from_abi`,
`from_AnnAssign`) and the call-site validator `fetch_call_return`.

External collaborators (type resolution, expression type validation,
constant checking, the namespace registry) are not part of the source
file; they are modelled as parameters or as already-resolved data
carried on the AST nodes, so that every definition in this file stays
computable and faithful to the control flow of the source.
-/

/-- A resolved type reference. The source treats resolved types
abstractly except for `Uint256Definition` (used for `gas`/`value`
keywords) and `TupleDefinition` (used for multi-value returns); any
other resolved type is represented by an opaque tag string. -/
inductive TypeRef : Type where
  | uint256 : TypeRef
  | tupleDef : List TypeRef → TypeRef
  | other : String → TypeRef

/-- An expression AST node, abstract except for its identity tag. The
external collaborators `check_constant` and `validate_expected_type`
are modelled as boolean-valued parameters over these nodes. -/
structure ExprNode : Type where
  tag : String
deriving DecidableEq

/-- A dynamic value handed to the external `validate_expected_type`
collaborator. The source is dynamically typed: `fetch_call_return`
passes either an expression node, a bare keyword-name string, or a
resolved type in either position. -/
inductive VObj : Type where
  | node : ExprNode → VObj
  | nameToken : String → VObj
  | typeRef : TypeRef → VObj

/-- An insertion-ordered string-keyed mapping, with the semantics of
Python's `OrderedDict`: assigning to an existing key overwrites its
value in place (keeping its original position), assigning a fresh key
appends it. -/
structure ODict (α : Type) : Type where
  entries : List (String × α)

def ODict.empty {α : Type} : ODict α := ⟨[]⟩

def ODict.contains {α : Type} (d : ODict α) (k : String) : Bool :=
  d.entries.any (fun p => p.1 == k)

def ODict.insert {α : Type} (d : ODict α) (k : String) (v : α) : ODict α :=
  if d.contains k then
    ⟨d.entries.map (fun p => if p.1 == k then (k, v) else p)⟩
  else
    ⟨d.entries ++ [(k, v)]⟩

def ODict.keys {α : Type} (d : ODict α) : List String :=
  d.entries.map Prod.fst

def ODict.values {α : Type} (d : ODict α) : List α :=
  d.entries.map Prod.snd

def ODict.find? {α : Type} (d : ODict α) (k : String) : Option α :=
  (d.entries.find? (fun p => p.1 == k)).map Prod.snd

def ODict.size {α : Type} (d : ODict α) : Nat :=
  d.entries.length

/-- The exception taxonomy of the source file, plus the failures of the
two modelled collaborators (`validate_expected_type` raising a type
mismatch that records the exact pair of dynamic values it was handed,
and `validate_call_args` raising an argument-shape error). -/
inductive VyperErr : Type where
  | ArgumentException : String → VyperErr
  | CallViolation : String → VyperErr
  | CompilerPanic : String → VyperErr
  | FunctionDeclarationException : String → VyperErr
  | InvalidType : String → VyperErr
  | NamespaceCollision : String → VyperErr
  | StateAccessViolation : String → VyperErr
  | StructureException : String → VyperErr
  | TypeMismatch : VObj → VObj → VyperErr
  | ArgShapeError : String → VyperErr

/-- `class FunctionVisibility(StringEnum)` with members PUBLIC, PRIVATE. -/
inductive FunctionVisibility : Type where
  | PUBLIC : FunctionVisibility
  | PRIVATE : FunctionVisibility
deriving DecidableEq, BEq

/-- `class StateMutability(StringEnum)` with members PURE, VIEW,
NONPAYABLE, PAYABLE. -/
inductive StateMutability : Type where
  | PURE : StateMutability
  | VIEW : StateMutability
  | NONPAYABLE : StateMutability
  | PAYABLE : StateMutability
deriving DecidableEq, BEq

/-- Canonical string tag of a visibility member (`StringEnum.auto()`
lowercases the member name; the decorators `@public` / `@private`
witness these tags). -/
def FunctionVisibility.toRaw : FunctionVisibility → String
  | .PUBLIC => "public"
  | .PRIVATE => "private"

/-- Modelled from the spec: `StringEnum` conversion from a raw string
(`FunctionVisibility(raw)`), failing on a non-member tag. The
`StringEnum` base class lives outside this source file. -/
def FunctionVisibility.fromRaw (s : String) : Option FunctionVisibility :=
  if s = "public" then some .PUBLIC
  else if s = "private" then some .PRIVATE
  else none

/-- Modelled from the spec: `FunctionVisibility.is_valid_value` tests
tag membership without raising. -/
def FunctionVisibility.is_valid_value (s : String) : Bool :=
  (FunctionVisibility.fromRaw s).isSome

/-- Canonical string tag of a mutability member (witnessed by
`StateMutability("nonpayable")` in the source and by the decorator
names `@pure` / `@view` / `@payable`). -/
def StateMutability.toRaw : StateMutability → String
  | .PURE => "pure"
  | .VIEW => "view"
  | .NONPAYABLE => "nonpayable"
  | .PAYABLE => "payable"

/-- Modelled from the spec: `StringEnum` conversion from a raw string
(`StateMutability(raw)`), failing on a non-member tag. -/
def StateMutability.fromRaw (s : String) : Option StateMutability :=
  if s = "pure" then some .PURE
  else if s = "view" then some .VIEW
  else if s = "nonpayable" then some .NONPAYABLE
  else if s = "payable" then some .PAYABLE
  else none

/-- Modelled from the spec: `StateMutability.is_valid_value` tests tag
membership without raising. -/
def StateMutability.is_valid_value (s : String) : Bool :=
  (StateMutability.fromRaw s).isSome

/-- The fields of an ABI-style record that `StateMutability.from_abi`
consults: `stateMutability` (string, presence-checked), `payable`
(truthiness of `.get`), `constant` (presence and truthiness). -/
structure AbiMutFields : Type where
  stateMutability : Option String
  payable : Option Bool
  constant : Option Bool

/-- `StateMutability.from_abi`: explicit `stateMutability` field wins
(converted through the enum constructor, which fails on a non-member
tag), else `payable` truthy gives PAYABLE, else `constant` present and
truthy gives VIEW, else NONPAYABLE. -/
def StateMutability.from_abi (d : AbiMutFields) : Option StateMutability :=
  match d.stateMutability with
  | some s => StateMutability.fromRaw s
  | none =>
    if d.payable.getD false then some .PAYABLE
    else if d.constant.getD false then some .VIEW
    else some .NONPAYABLE

example : StateMutability.from_abi ⟨none, none, none⟩ = some .NONPAYABLE := by decide
example : StateMutability.from_abi ⟨none, some true, none⟩ = some .PAYABLE := by decide
example : StateMutability.from_abi ⟨none, none, some true⟩ = some .VIEW := by decide
example : StateMutability.from_abi ⟨some "pure", none, none⟩ = some .PURE := by decide
example : StateMutability.from_abi ⟨some "bogus", none, none⟩ = none := by decide

/-- `arg_count`: `Union[Tuple[int, int], int]` — either an exact
positional count or a `(min, max)` pair when defaults exist. -/
inductive ArgCount : Type where
  | exact : Nat → ArgCount
  | range : Nat → Nat → ArgCount
deriving DecidableEq

/-- The `ContractFunctionType` value object. `kwarg_keys` and
`is_public` are the fields computed by `__init__`. -/
structure ContractFunctionType : Type where
  name : String
  arguments : ODict TypeRef
  arg_count : ArgCount
  return_type : Option TypeRef
  kwarg_keys : List String
  visibility : FunctionVisibility
  mutability : StateMutability
  nonreentrant : Option String
  is_public : Bool

/-- `ContractFunctionType.__init__`: stores the fields, computes
`kwarg_keys = list(arguments)[arg_count[0]:]` when `arg_count` is a
pair (else `[]`), and `is_public` from the visibility. -/
def ContractFunctionType.init (name : String) (arguments : ODict TypeRef)
    (arg_count : ArgCount) (return_type : Option TypeRef)
    (function_visibility : FunctionVisibility) (state_mutability : StateMutability)
    (nonreentrant : Option String) : ContractFunctionType :=
  { name := name
    arguments := arguments
    arg_count := arg_count
    return_type := return_type
    kwarg_keys :=
      match arg_count with
      | .range lo _ => arguments.keys.drop lo
      | .exact _ => []
    visibility := function_visibility
    mutability := state_mutability
    nonreentrant := nonreentrant
    is_public := function_visibility == FunctionVisibility.PUBLIC }

/-- One input/output entry of an ABI function record. `resolved` is the
result of the external `get_type_from_abi` collaborator on the entry. -/
structure AbiIoEntry : Type where
  name : String
  resolved : TypeRef

/-- An ABI function record: `name`, `inputs`, `outputs`, and the
mutability-related fields consulted by `StateMutability.from_abi`. -/
structure AbiFunction : Type where
  name : String
  inputs : List AbiIoEntry
  outputs : List AbiIoEntry
  mutFields : AbiMutFields

/-- `ContractFunctionType.from_abi`: arguments from `inputs` in order
through an `OrderedDict`, return type by output count (0 / 1 / many),
exact arity `len(arguments)`, PUBLIC visibility, mutability from the
record, no reentrancy lock. Fails only when the mutability conversion
fails. -/
def ContractFunctionType.from_abi (abi : AbiFunction) : Option ContractFunctionType :=
  let arguments :=
    abi.inputs.foldl (fun d item => d.insert item.name item.resolved) ODict.empty
  let return_type : Option TypeRef :=
    match abi.outputs with
    | [] => none
    | [o] => some o.resolved
    | os => some (TypeRef.tupleDef (os.map AbiIoEntry.resolved))
  match StateMutability.from_abi abi.mutFields with
  | none => none
  | some mu =>
    some (ContractFunctionType.init abi.name arguments (ArgCount.exact arguments.size)
      return_type FunctionVisibility.PUBLIC mu none)

/-- A function-parameter node (`vy_ast.arg`): its name and, when a type
annotation is present, the type the external `get_type_from_annotation`
collaborator resolves it to. -/
structure ArgNode : Type where
  arg : String
  ann : Option TypeRef

/-- An argument of a decorator call node: a string literal
(`vy_ast.Str`) or anything else. -/
inductive DecArg : Type where
  | str : String → DecArg
  | nonstr : DecArg

/-- A decorator node: a call (`vy_ast.Call`, with `func.id` when its
function is a plain name), a bare name (`vy_ast.Name`), or any other
syntactic shape. -/
inductive Decorator : Type where
  | call : Option String → List DecArg → Decorator
  | name : String → Decorator
  | otherShape : Decorator

/-- The return annotation of a function declaration: a Name/Call/
Subscript shape (carrying the type the external resolver yields for
it), a Tuple of such shapes (carrying the element-wise resolutions), or
any other shape. -/
inductive RetAnn : Type where
  | single : TypeRef → RetAnn
  | tup : List TypeRef → RetAnn
  | badShape : RetAnn

/-- `node.args` of a `FunctionDef`: positional parameters and the
trailing default-value expressions. -/
structure ArgsNode : Type where
  args : List ArgNode
  defaults : List ExprNode

/-- A `vy_ast.FunctionDef` node. -/
structure FunctionDef : Type where
  name : String
  decorator_list : List Decorator
  args : ArgsNode
  returns : Option RetAnn

/-- The namespace collaborator: `namespace["self"].members` and plain
membership in the namespace. -/
structure NamespaceEnv : Type where
  self_members : List String
  names : List String

/-- The `kwargs` dictionary accumulated by the decorator loop of
`from_FunctionDef` (three keys are ever written). -/
structure DecoKwargs : Type where
  state_mutability : Option StateMutability
  function_visibility : Option FunctionVisibility
  nonreentrant : Option String

/-- The initial `kwargs` of `from_FunctionDef`, derived from the
`is_immutable` / `is_public` override flags. -/
def initialKwargs (is_immutable : Option Bool) ( is_public : Option Bool) : DecoKwargs :=
  { state_mutability :=
      is_immutable.map (fun b => if b then StateMutability.VIEW else StateMutability.NONPAYABLE)
    function_visibility :=
      is_public.map (fun b => if b then FunctionVisibility.PUBLIC else FunctionVisibility.PRIVATE)
    nonreentrant := none }

/-- The decorator loop of `from_FunctionDef`, left to right. A call
decorator must be `@nonreentrant("key")` and may not repeat; a bare
name sets visibility or mutability, each at most once; anything else
errors. -/
def processDecorators : List Decorator → DecoKwargs → Except VyperErr DecoKwargs
  | [], kw => .ok kw
  | .call func_id dargs :: rest, kw =>
    match kw.nonreentrant with
    | some prev =>
      .error (.StructureException
        ("nonreentrant decorator is already set with key: " ++ prev))
    | none =>
      if func_id ≠ some "nonreentrant" then
        .error (.StructureException "Decorator is not callable")
      else
        match dargs with
        | [.str s] =>
          processDecorators rest
            { state_mutability := kw.state_mutability
              function_visibility := kw.function_visibility
              nonreentrant := some s }
        | _ =>
          .error (.StructureException
            "@nonreentrant name must be given as a single string literal")
  | .name id :: rest, kw =>
    if FunctionVisibility.is_valid_value id then
      match kw.function_visibility with
      | some prev =>
        .error (.FunctionDeclarationException
          ("Visibility is already set to: " ++ prev.toRaw))
      | none =>
        match FunctionVisibility.fromRaw id with
        | some v =>
          processDecorators rest
            { state_mutability := kw.state_mutability
              function_visibility := some v
              nonreentrant := kw.nonreentrant }
        | none => .error (.CompilerPanic "unreachable")
    else if StateMutability.is_valid_value id then
      match kw.state_mutability with
      | some prev =>
        .error (.FunctionDeclarationException
          ("Mutability is already set to: " ++ prev.toRaw))
      | none =>
        match StateMutability.fromRaw id with
        | some m =>
          processDecorators rest
            { state_mutability := some m
              function_visibility := kw.function_visibility
              nonreentrant := kw.nonreentrant }
        | none => .error (.CompilerPanic "unreachable")
    else
      .error (.FunctionDeclarationException ("Unknown decorator: " ++ id))
  | .otherShape :: _, _ =>
    .error (.StructureException "Bad decorator syntax")

/-- The parameter loop of `from_FunctionDef`: for each parameter paired
with its (possibly absent) default expression, reject reserved names
`gas`/`value`, duplicates, namespace collisions and missing
annotations; for a present default, require the external constant check
and validate it against the declared type; accumulate into the ordered
mapping. `cc` is the external `check_constant`, `vet` the external
`validate_expected_type` (true means the validation passes). -/
def processParams (cc : ExprNode → Bool) (vet : VObj → VObj → Bool)
    (ns : NamespaceEnv) :
    List (ArgNode × Option ExprNode) → ODict TypeRef → Except VyperErr (ODict TypeRef)
  | [], acc => .ok acc
  | (a, dflt) :: rest, acc =>
    if a.arg = "gas" ∨ a.arg = "value" then
      .error (.ArgumentException
        ("Cannot use " ++ a.arg ++ " as a variable name in a function input"))
    else if acc.contains a.arg then
      .error (.ArgumentException ("Function contains multiple inputs named " ++ a.arg))
    else if ns.self_members.contains a.arg then
      .error (.NamespaceCollision "Name shadows an existing storage-scoped value")
    else if ns.names.contains a.arg then
      .error (.NamespaceCollision a.arg)
    else
      match a.ann with
      | none =>
        .error (.ArgumentException ("Function argument " ++ a.arg ++ " is missing a type"))
      | some td =>
        match dflt with
        | some value =>
          if ¬ cc value then
            .error (.StateAccessViolation "Value must be literal or environment variable")
          else if ¬ vet (.node value) (.typeRef td) then
            .error (.TypeMismatch (.node value) (.typeRef td))
          else
            processParams cc vet ns rest (acc.insert a.arg td)
        | none =>
          processParams cc vet ns rest (acc.insert a.arg td)

/-- Return-type resolution of `from_FunctionDef`: no annotation gives
no return type, a Name/Call/Subscript shape gives its resolved type, a
Tuple gives a `TupleDefinition` built element-wise, anything else is an
invalid-type error. -/
def resolveReturns (r : Option RetAnn) : Except VyperErr (Option TypeRef) :=
  match r with
  | none => .ok none
  | some (.single t) => .ok (some t)
  | some (.tup ts) => .ok (some (TypeRef.tupleDef ts))
  | some .badShape =>
    .error (.InvalidType "Function return value must be a type name or tuple")

/-- `ContractFunctionType.from_FunctionDef`: override flags seed the
kwargs, the decorator loop runs, visibility must be resolved (no
default) while mutability defaults to nonpayable, arity is exact or a
`(min, max)` pair when defaults exist, the parameter loop builds the
ordered arguments (consulting defaults only when `include_defaults`),
and the return annotation is resolved. -/
def ContractFunctionType.from_FunctionDef (cc : ExprNode → Bool)
    (vet : VObj → VObj → Bool) (ns : NamespaceEnv) (node : FunctionDef)
    (is_immutable : Option Bool) ( is_public : Option Bool)
    (include_defaults : Bool) : Except VyperErr ContractFunctionType :=
  match processDecorators node.decorator_list (initialKwargs is_immutable is_public) with
  | .error e => .error e
  | .ok kw =>
    match kw.function_visibility with
    | none =>
      .error (.FunctionDeclarationException
        "Visibility must be set to one of public or private")
    | some vis =>
      let mu := match kw.state_mutability with
        | some m => m
        | none => StateMutability.NONPAYABLE
      let n := node.args.args.length
      let arg_count : ArgCount :=
        if node.args.defaults.isEmpty then .exact n
        else .range (n - node.args.defaults.length) n
      let defaults : List (Option ExprNode) :=
        if include_defaults then
          List.replicate (n - node.args.defaults.length) none
            ++ node.args.defaults.map some
        else
          List.replicate n none
      match processParams cc vet ns (node.args.args.zip defaults) ODict.empty with
      | .error e => .error e
      | .ok arguments =>
        match resolveReturns node.returns with
        | .error e => .error e
        | .ok return_type =>
          .ok (ContractFunctionType.init node.name arguments arg_count return_type
            vis mu kw.nonreentrant)

/-- An `AnnAssign` node for a public state variable: its target name,
whether the annotation is a call (to `public(...)`), and the
`get_signature()` the declared type reports (argument types of the
implicit getter und its return type) — the storage type itself is an
external collaborator. -/
structure AnnAssign : Type where
  target_id : String
  isCall : Bool
  sig_args : List TypeRef
  sig_ret : Option TypeRef

/-- The accessor loop of `from_AnnAssign`: each argument type is stored
under the generated name `arg` + decimal index of the current mapping
size. -/
def buildAccessorArgs : List TypeRef → ODict TypeRef → ODict TypeRef
  | [], d => d
  | t :: rest, d => buildAccessorArgs rest (d.insert ("arg" ++ Nat.repr d.size) t)

/-- `ContractFunctionType.from_AnnAssign`: panics unless the annotation
is a call, then synthesizes a PUBLIC nonpayable getter named after the
variable, with generated `argN` names, exact arity, and the signature's
return type. -/
def ContractFunctionType.from_AnnAssign (node : AnnAssign) :
    Except VyperErr ContractFunctionType :=
  if ¬ node.isCall then
    .error (.CompilerPanic "Annotation must be a call to public()")
  else
    .ok (ContractFunctionType.init node.target_id
      (buildAccessorArgs node.sig_args ODict.empty)
      (ArgCount.exact node.sig_args.length) node.sig_ret
      FunctionVisibility.PUBLIC StateMutability.NONPAYABLE none)

/-- A keyword argument of a call expression: `kwarg.arg` is the keyword
name, `kwarg.value` the supplied expression. -/
structure KeywordNode : Type where
  arg : String
  value : ExprNode

/-- A `vy_ast.Call` node as `fetch_call_return` consults it:
`node.get("func.value.id")` (the receiver name, `some "self"` for the
implicit-self convention), the positional argument expressions, and the
keyword arguments. -/
structure CallNode : Type where
  func_value_id : Option String
  args : List ExprNode
  keywords : List KeywordNode

/-- Modelled from the spec: `validate_call_args` from
`vyper/ast/validation.py` is not part of this source file. Per the
spec it checks the positional count against the arity (exactly N, or
within the min/max pair), requires every keyword name to be in the
accepted set, and rejects a keyword that names a parameter already
supplied positionally (the first `count - min` accepted keys are the
positionally consumed ones). -/
def validate_call_args (node : CallNode) (arg_count : ArgCount)
    (kwarg_keys : List String) : Except VyperErr Unit :=
  let p := node.args.length
  let countOk : Bool :=
    match arg_count with
    | .exact n => p == n
    | .range lo hi => decide (lo ≤ p) && decide (p ≤ hi)
  if ¬ countOk then
    .error (.ArgShapeError "invalid positional argument count")
  else
    let lo := match arg_count with
      | .exact n => n
      | .range l _ => l
    let consumed := kwarg_keys.take (p - lo)
    if node.keywords.all (fun kw => kwarg_keys.contains kw.arg
        && ¬ consumed.contains kw.arg) then
      .ok ()
    else
      .error (.ArgShapeError "invalid keyword argument")

/-- The positional-argument loop of `fetch_call_return`: each supplied
expression is validated against the declared type it is zipped with. -/
def checkPositional (vet : VObj → VObj → Bool) :
    List (ExprNode × TypeRef) → Except VyperErr Unit
  | [] => .ok ()
  | (arg, expected) :: rest =>
    if vet (.node arg) (.typeRef expected) then checkPositional vet rest
    else .error (.TypeMismatch (.node arg) (.typeRef expected))

/-- The keyword loop of `fetch_call_return` as the source writes it: a
`gas`/`value` keyword validates its value expression against
`Uint256Definition()`; any other keyword passes the keyword's *name*
and its value expression to `validate_expected_type`. -/
def checkKeywords (vet : VObj → VObj → Bool) :
    List KeywordNode → Except VyperErr Unit
  | [] => .ok ()
  | kw :: rest =>
    if kw.arg = "gas" ∨ kw.arg = "value" then
      if vet (.node kw.value) (.typeRef .uint256) then checkKeywords vet rest
      else .error (.TypeMismatch (.node kw.value) (.typeRef .uint256))
    else
      if vet (.nameToken kw.arg) (.node kw.value) then checkKeywords vet rest
      else .error (.TypeMismatch (.nameToken kw.arg) (.node kw.value))

/-- The accepted keyword set computed by `fetch_call_return`: the
function's own `kwarg_keys`, plus `gas` and `value` when the call is
not through the implicit-self convention. -/
def acceptedKwargKeys (f : ContractFunctionType) (node : CallNode) : List String :=
  if node.func_value_id ≠ some "self" then f.kwarg_keys ++ ["gas", "value"]
  else f.kwarg_keys

/-- `ContractFunctionType.fetch_call_return`: rejects implicit-self
calls to public functions, widens the keyword set for external calls,
validates the call shape, then the positional arguments, then the
keyword arguments, and returns the function's return type. -/
def ContractFunctionType.fetch_call_return (vet : VObj → VObj → Bool)
    (f : ContractFunctionType) (node : CallNode) :
    Except VyperErr (Option TypeRef) :=
  if node.func_value_id = some "self" ∧ f.visibility = FunctionVisibility.PUBLIC then
    .error (.CallViolation "Cannnot call public functions via 'self'")
  else
    match validate_call_args node f.arg_count (acceptedKwargKeys f node) with
    | .error e => .error e
    | .ok _ =>
      match checkPositional vet (node.args.zip f.arguments.values) with
      | .error e => .error e
      | .ok _ =>
        match checkKeywords vet node.keywords with
        | .error e => .error e
        | .ok _ => .ok f.return_type

/-- Modelled from the spec: the keyword loop as the spec's §4.5 step 5
words it — for a keyword that is not `gas`/`value`, the expected type
is obtained by looking up the keyword's name in the function's ordered
arguments mapping and the supplied value expression is validated
against that declared type. Written only to be compared against
`checkKeywords`, which embeds the source. -/
def checkKeywordsSpec (vet : VObj → VObj → Bool) (arguments : ODict TypeRef) :
    List KeywordNode → Except VyperErr Unit
  | [] => .ok ()
  | kw :: rest =>
    if kw.arg = "gas" ∨ kw.arg = "value" then
      if vet (.node kw.value) (.typeRef .uint256) then checkKeywordsSpec vet arguments rest
      else .error (.TypeMismatch (.node kw.value) (.typeRef .uint256))
    else
      match arguments.find? kw.arg with
      | none => .error (.ArgShapeError "unknown keyword argument")
      | some expected =>
        if vet (.node kw.value) (.typeRef expected) then
          checkKeywordsSpec vet arguments rest
        else .error (.TypeMismatch (.node kw.value) (.typeRef expected))

/-- Modelled from the spec: `fetch_call_return` with the keyword loop
replaced by `checkKeywordsSpec`; identical to
`ContractFunctionType.fetch_call_return` in every other step. -/
def fetchCallReturnSpec (vet : VObj → VObj → Bool)
    (f : ContractFunctionType) (node : CallNode) :
    Except VyperErr (Option TypeRef) :=
  if node.func_value_id = some "self" ∧ f.visibility = FunctionVisibility.PUBLIC then
    .error (.CallViolation "Cannnot call public functions via 'self'")
  else
    match validate_call_args node f.arg_count (acceptedKwargKeys f node) with
    | .error e => .error e
    | .ok _ =>
      match checkPositional vet (node.args.zip f.arguments.values) with
      | .error e => .error e
      | .ok _ =>
        match checkKeywordsSpec vet f.arguments node.keywords with
        | .error e => .error e
        | .ok _ => .ok f.return_type

lemma list_find?_key_of_any_eq_false {α : Type} (l : List (String × α)) (k : String)
    (h : l.any (fun p => p.1 == k) = false) :
    l.find? (fun p => p.1 == k) = none := by
  induction l with
  | nil => rfl
  | cons q rest ih =>
    simp only [List.any_cons, Bool.or_eq_false_iff] at h
    simp only [List.find?, h.1]
    exact ih h.2

lemma list_find?_key_append {α : Type} (l₁ l₂ : List (String × α)) (k : String) :
    (l₁ ++ l₂).find? (fun p => p.1 == k)
      = ((l₁.find? (fun p => p.1 == k)).orElse
          (fun _ => l₂.find? (fun p => p.1 == k))) := by
  induction l₁ with
  | nil => rfl
  | cons q rest ih =>
    by_cases hq : q.1 = k
    · simp [List.find?, hq]
    · simp only [List.cons_append, List.find?,
        show (q.1 == k) = false from beq_eq_false_iff_ne.mpr hq]
      exact ih

lemma list_find?_key_map_replace_self {α : Type} (l : List (String × α))
    (k : String) (v : α) (h : l.any (fun p => p.1 == k) = true) :
    (l.map (fun p => if p.1 == k then (k, v) else p)).find? (fun p => p.1 == k)
      = some (k, v) := by
  induction l with
  | nil => simp at h
  | cons q rest ih =>
    by_cases hq : q.1 = k
    · simp [List.find?, hq]
    · have hb : (q.1 == k) = false := beq_eq_false_iff_ne.mpr hq
      simp only [List.any_cons, hb, Bool.false_or] at h
      simp only [List.map_cons, hb, Bool.false_eq_true, if_false, List.find?, hb]
      exact ih h

lemma list_find?_key_map_replace_ne {α : Type} (l : List (String × α))
    (k k' : String) (v : α) (hne : k' ≠ k) :
    (l.map (fun p => if p.1 == k then (k, v) else p)).find? (fun p => p.1 == k')
      = l.find? (fun p => p.1 == k') := by
  induction l with
  | nil => rfl
  | cons q rest ih =>
    by_cases hq : q.1 = k
    · have hk' : (k == k') = false := beq_eq_false_iff_ne.mpr (Ne.symm hne)
      have hq' : (q.1 == k') = false := by
        rw [hq]; exact hk'
      simp only [List.map_cons, hq, if_pos, List.find?, hk', hq',
        beq_self_eq_true]
      exact ih
    · have hb : (q.1 == k) = false := beq_eq_false_iff_ne.mpr hq
      simp only [List.map_cons, hb, Bool.false_eq_true, if_false, List.find?]
      by_cases hq' : q.1 = k'
      · simp [hq']
      · simp only [show (q.1 == k') = false from beq_eq_false_iff_ne.mpr hq']
        exact ih

lemma ODict.contains_iff_mem_keys {α : Type} (d : ODict α) (k : String) :
    d.contains k = true ↔ k ∈ d.keys := by
  unfold ODict.contains ODict.keys
  simp only [List.any_eq_true, List.mem_map]
  constructor
  · rintro ⟨p, hp, he⟩
    exact ⟨p, hp, eq_of_beq he⟩
  · rintro ⟨p, hp, he⟩
    exact ⟨p, hp, by rw [he]; exact beq_self_eq_true k⟩

lemma ODict.keys_insert_of_not_contains {α : Type} (d : ODict α) (k : String)
    (v : α) (h : d.contains k = false) :
    (d.insert k v).keys = d.keys ++ [k] := by
  unfold ODict.insert
  rw [h]
  simp [ODict.keys]

lemma ODict.keys_insert_of_contains {α : Type} (d : ODict α) (k : String)
    (v : α) (h : d.contains k = true) :
    (d.insert k v).keys = d.keys := by
  unfold ODict.insert
  rw [h]
  simp only [if_pos]
  unfold ODict.keys
  simp only [List.map_map]
  apply List.map_congr_left
  intro p _
  by_cases hp : p.1 = k <;> simp [hp]

lemma ODict.size_insert {α : Type} (d : ODict α) (k : String) (v : α) :
    (d.insert k v).size = if d.contains k then d.size else d.size + 1 := by
  unfold ODict.insert ODict.size
  by_cases h : d.contains k <;> simp [h]

lemma ODict.find?_insert_self {α : Type} (d : ODict α) (k : String) (v : α) :
    (d.insert k v).find? k = some v := by
  unfold ODict.insert ODict.find?
  by_cases h : d.contains k
  · rw [if_pos h]
    unfold ODict.contains at h
    rw [list_find?_key_map_replace_self d.entries k v h]
    rfl
  · rw [if_neg h]
    unfold ODict.contains at h
    have h' : d.entries.any (fun p => p.1 == k) = false := Bool.eq_false_iff.mpr h
    rw [list_find?_key_append, list_find?_key_of_any_eq_false d.entries k h']
    simp [Option.orElse, List.find?]

lemma ODict.find?_insert_ne {α : Type} (d : ODict α) (k k' : String) (v : α)
    (hne : k' ≠ k) : (d.insert k v).find? k' = d.find? k' := by
  unfold ODict.insert ODict.find?
  by_cases h : d.contains k
  · rw [if_pos h]
    simp only [list_find?_key_map_replace_ne d.entries k k' v hne]
  · rw [if_neg h]
    simp only [list_find?_key_append]
    have : List.find? (fun p => p.1 == k') [(k, v)] = none := by
      simp [List.find?, beq_eq_false_iff_ne.mpr (Ne.symm hne)]
    rw [this]
    cases hf : d.entries.find? (fun p => p.1 == k') <;> simp [Option.orElse]

/-- C2 counterexample: the claim says `StateMutability.from_abi` never
fails, returning a value for every ABI-style record. It fails on a
record whose explicit `stateMutability` field holds a string that is
not a member tag: the enum construction it delegates to rejects the
tag, so no mutability value is produced. -/
theorem C2_counterexample :
    StateMutability.from_abi ⟨some "bogus", none, none⟩ = none := by
  decide

/-- C2 (amended): provided the `stateMutability` field, when present,
holds a valid mutability tag, `StateMutability.from_abi` never fails
and follows the 4-branch fallback — the explicit field wins, else
truthy `payable` gives payable, else truthy `constant` gives view, else
nonpayable; in particular the empty record gives nonpayable,
`payable: true` gives payable, `constant: true` gives view and
`stateMutability: "pure"` gives pure. -/
theorem C2_from_abi_fallback (d : AbiMutFields)
    (hvalid : ∀ s, d.stateMutability = some s → StateMutability.is_valid_value s = true) :
    (StateMutability.from_abi d).isSome = true
    ∧ (∀ s m, d.stateMutability = some s → StateMutability.fromRaw s = some m →
        StateMutability.from_abi d = some m)
    ∧ (d.stateMutability = none → d.payable.getD false = true →
        StateMutability.from_abi d = some .PAYABLE)
    ∧ (d.stateMutability = none → d.payable.getD false = false →
        d.constant.getD false = true → StateMutability.from_abi d = some .VIEW)
    ∧ (d.stateMutability = none → d.payable.getD false = false →
        d.constant.getD false = false → StateMutability.from_abi d = some .NONPAYABLE)
    ∧ StateMutability.from_abi ⟨none, none, none⟩ = some .NONPAYABLE
    ∧ StateMutability.from_abi ⟨none, some true, none⟩ = some .PAYABLE
    ∧ StateMutability.from_abi ⟨none, none, some true⟩ = some .VIEW
    ∧ StateMutability.from_abi ⟨some "pure", none, none⟩ = some .PURE := by
  refine ⟨?_, ?_, ?_, ?_, ?_, by decide, by decide, by decide, by decide⟩
  · cases hs : d.stateMutability with
    | some s =>
      have hv := hvalid s hs
      unfold StateMutability.is_valid_value at hv
      simp [StateMutability.from_abi, hs, hv]
    | none =>
      by_cases hp : d.payable.getD false <;>
        by_cases hc : d.constant.getD false <;>
          simp [StateMutability.from_abi, hs, hp, hc]
  · intro s m hs hm
    simp [StateMutability.from_abi, hs, hm]
  · intro hs hp
    simp [StateMutability.from_abi, hs, hp]
  · intro hs hp hc
    simp [StateMutability.from_abi, hs, hp, hc]
  · intro hs hp hc
    simp [StateMutability.from_abi, hs, hp, hc]

/-- C2 witness: the amended theorem applied to the record carrying only
`payable: true`. -/
theorem C2_from_abi_fallback_witness :
    (StateMutability.from_abi ⟨none, some true, none⟩).isSome = true :=
  (C2_from_abi_fallback ⟨none, some true, none⟩ (by intro s hs; cases hs)).1

lemma ODict.mem_keys_insert {α : Type} (d : ODict α) (k x : String) (v : α) :
    x ∈ (d.insert k v).keys ↔ x ∈ d.keys ∨ x = k := by
  by_cases h : d.contains k
  · rw [ODict.keys_insert_of_contains d k v h]
    have hk : k ∈ d.keys := (ODict.contains_iff_mem_keys d k).mp h
    constructor
    · exact Or.inl
    · rintro (hx | hx)
      · exact hx
      · exact hx ▸ hk
  · rw [ODict.keys_insert_of_not_contains d k v (Bool.eq_false_iff.mpr h)]
    simp [List.mem_append]

lemma ODict.nodup_keys_insert {α : Type} (d : ODict α) (k : String) (v : α)
    (h : d.keys.Nodup) : (d.insert k v).keys.Nodup := by
  by_cases hc : d.contains k
  · rw [ODict.keys_insert_of_contains d k v hc]
    exact h
  · rw [ODict.keys_insert_of_not_contains d k v (Bool.eq_false_iff.mpr hc)]
    have hk : k ∉ d.keys := fun hm =>
      hc ((ODict.contains_iff_mem_keys d k).mpr hm)
    refine List.Nodup.append h (List.nodup_singleton k) ?_
    intro a ha hak
    rw [List.mem_singleton] at hak
    exact hk (hak ▸ ha)

/-- The resolved type of the last ABI input entry carrying a given
name, if any — the value that survives repeated `OrderedDict`
assignment under that name. -/
def lastResolved (k : String) : List AbiIoEntry → Option TypeRef
  | [] => none
  | it :: rest =>
    match lastResolved k rest with
    | some t => some t
    | none => if it.name = k then some it.resolved else none

lemma abi_fold_find? (items : List AbiIoEntry) :
    ∀ (d : ODict TypeRef) (k : String),
    (items.foldl (fun d it => d.insert it.name it.resolved) d).find? k
      = (match lastResolved k items with
         | some t => some t
         | none => d.find? k) := by
  induction items with
  | nil => intro d k; rfl
  | cons it rest ih =>
    intro d k
    simp only [List.foldl_cons, lastResolved]
    rw [ih]
    cases h : lastResolved k rest with
    | some t => rfl
    | none =>
      by_cases hk : it.name = k
      · rw [← hk]
        simp [ODict.find?_insert_self]
      · simp [ODict.find?_insert_ne d it.name k it.resolved (Ne.symm hk), hk]

lemma abi_fold_mem_keys (items : List AbiIoEntry) :
    ∀ (d : ODict TypeRef) (x : String),
    x ∈ (items.foldl (fun d it => d.insert it.name it.resolved) d).keys
      ↔ x ∈ d.keys ∨ x ∈ items.map AbiIoEntry.name := by
  induction items with
  | nil => intro d x; simp
  | cons it rest ih =>
    intro d x
    simp only [List.foldl_cons, List.map_cons, List.mem_cons]
    rw [ih, ODict.mem_keys_insert]
    tauto

lemma abi_fold_nodup_keys (items : List AbiIoEntry) :
    ∀ (d : ODict TypeRef), d.keys.Nodup →
    (items.foldl (fun d it => d.insert it.name it.resolved) d).keys.Nodup := by
  induction items with
  | nil => intro d h; exact h
  | cons it rest ih =>
    intro d h
    exact ih _ (ODict.nodup_keys_insert d it.name it.resolved h)

lemma abi_fold_size_eq_dedup (items : List AbiIoEntry) :
    (items.foldl (fun d it => d.insert it.name it.resolved) ODict.empty).size
      = (items.map AbiIoEntry.name).dedup.length := by
  set d := items.foldl (fun d it => d.insert it.name it.resolved) ODict.empty with hd
  have hnodup : d.keys.Nodup := abi_fold_nodup_keys items ODict.empty List.nodup_nil
  have hmem : ∀ x, x ∈ d.keys ↔ x ∈ (items.map AbiIoEntry.name).dedup := by
    intro x
    rw [hd, abi_fold_mem_keys items ODict.empty x, List.mem_dedup]
    simp [ODict.empty, ODict.keys]
  have hsize : d.size = d.keys.length := by
    simp [ODict.size, ODict.keys]
  rw [hsize]
  have h1 : d.keys.length = d.keys.toFinset.card :=
    (List.toFinset_card_of_nodup hnodup).symm
  have h2 : (items.map AbiIoEntry.name).dedup.length
      = (items.map AbiIoEntry.name).dedup.toFinset.card :=
    (List.toFinset_card_of_nodup ((items.map AbiIoEntry.name).nodup_dedup)).symm
  rw [h1, h2]
  congr 1
  ext x
  simp only [List.mem_toFinset]
  exact hmem x

/-- C6: every function type built by `from_abi` has public visibility,
an exact arity (the size of the arguments mapping), no reentrancy
lock, the record's name, and a return type that is absent for zero
outputs, the single resolved type for one output, and a fixed tuple of
the resolved output types for more than one. -/
theorem C6_from_abi_shape (abi : AbiFunction) (f : ContractFunctionType)
    (h : ContractFunctionType.from_abi abi = some f) :
    f.visibility = FunctionVisibility.PUBLIC
    ∧ f.arg_count = ArgCount.exact f.arguments.size
    ∧ f.nonreentrant = none
    ∧ f.name = abi.name
    ∧ f.return_type = (match abi.outputs with
        | [] => none
        | [o] => some o.resolved
        | os => some (TypeRef.tupleDef (os.map AbiIoEntry.resolved))) := by
  unfold ContractFunctionType.from_abi at h
  cases hm : StateMutability.from_abi abi.mutFields with
  | none => rw [hm] at h; cases h
  | some mu =>
    rw [hm] at h
    simp only [Option.some.injEq] at h
    subst h
    refine ⟨rfl, rfl, rfl, rfl, rfl⟩

def abiEx6 : AbiFunction :=
  ⟨"bar", [⟨"a", TypeRef.uint256⟩], [⟨"out", TypeRef.uint256⟩], ⟨none, none, none⟩⟩

def cftEx6 : ContractFunctionType :=
  ContractFunctionType.init "bar" ⟨[("a", TypeRef.uint256)]⟩ (ArgCount.exact 1)
    (some TypeRef.uint256) FunctionVisibility.PUBLIC StateMutability.NONPAYABLE none

/-- C6 witness: the shape theorem applied to a one-input one-output
record with no mutability fields. -/
theorem C6_from_abi_shape_witness :
    cftEx6.visibility = FunctionVisibility.PUBLIC
    ∧ cftEx6.arg_count = ArgCount.exact cftEx6.arguments.size :=
  ⟨(C6_from_abi_shape abiEx6 cftEx6 rfl).1, (C6_from_abi_shape abiEx6 cftEx6 rfl).2.1⟩

/-- C10: `from_abi` does not enforce input-name uniqueness — the
arguments mapping holds, for each name, the resolved type of the last
input entry carrying that name, and the exact arity is the number of
distinct input names, not the number of input entries. -/
theorem C10_from_abi_duplicate_names (abi : AbiFunction) (f : ContractFunctionType)
    (h : ContractFunctionType.from_abi abi = some f) :
    f.arg_count = ArgCount.exact ((abi.inputs.map AbiIoEntry.name).dedup.length)
    ∧ (∀ k, f.arguments.find? k = lastResolved k abi.inputs) := by
  unfold ContractFunctionType.from_abi at h
  cases hm : StateMutability.from_abi abi.mutFields with
  | none => rw [hm] at h; cases h
  | some mu =>
    rw [hm] at h
    simp only [Option.some.injEq] at h
    subst h
    constructor
    · show ArgCount.exact _ = ArgCount.exact _
      rw [abi_fold_size_eq_dedup]
    · intro k
      show (abi.inputs.foldl (fun d it => d.insert it.name it.resolved)
        ODict.empty).find? k = _
      rw [abi_fold_find? abi.inputs ODict.empty k]
      cases hl : lastResolved k abi.inputs with
      | some t => rfl
      | none => rfl

def abiEx10 : AbiFunction :=
  ⟨"dup", [⟨"a", TypeRef.uint256⟩, ⟨"a", TypeRef.other "bool"⟩], [], ⟨none, none, none⟩⟩

def cftEx10 : ContractFunctionType :=
  ContractFunctionType.init "dup" ⟨[("a", TypeRef.other "bool")]⟩ (ArgCount.exact 1)
    none FunctionVisibility.PUBLIC StateMutability.NONPAYABLE none

/-- C10 witness: a record with two inputs both named `a` yields arity
exactly 1 (the distinct-name count) and the second entry's type. -/
theorem C10_from_abi_duplicate_names_witness :
    cftEx10.arg_count
      = ArgCount.exact ((abiEx10.inputs.map AbiIoEntry.name).dedup.length)
    ∧ cftEx10.arguments.find? "a" = lastResolved "a" abiEx10.inputs :=
  ⟨(C10_from_abi_duplicate_names abiEx10 cftEx10 rfl).1,
   (C10_from_abi_duplicate_names abiEx10 cftEx10 rfl).2 "a"⟩

lemma processParams_keys (cc : ExprNode → Bool) (vet : VObj → VObj → Bool)
    (ns : NamespaceEnv) :
    ∀ (pairs : List (ArgNode × Option ExprNode)) (acc d : ODict TypeRef),
    processParams cc vet ns pairs acc = .ok d →
    d.keys = acc.keys ++ pairs.map (fun p => p.1.arg) := by
  intro pairs
  induction pairs with
  | nil =>
    intro acc d h
    rw [processParams] at h
    cases h
    simp
  | cons p rest ih =>
    intro acc d h
    obtain ⟨a, dflt⟩ := p
    rw [processParams] at h
    by_cases h1 : a.arg = "gas" ∨ a.arg = "value"
    · rw [if_pos h1] at h; exact Except.noConfusion h
    rw [if_neg h1] at h
    by_cases h2 : acc.contains a.arg = true
    · rw [if_pos h2] at h; exact Except.noConfusion h
    rw [if_neg h2] at h
    by_cases h3 : ns.self_members.contains a.arg = true
    · rw [if_pos h3] at h; exact Except.noConfusion h
    rw [if_neg h3] at h
    by_cases h4 : ns.names.contains a.arg = true
    · rw [if_pos h4] at h; exact Except.noConfusion h
    rw [if_neg h4] at h
    cases hann : a.ann with
    | none => rw [hann] at h; exact Except.noConfusion h
    | some td =>
      rw [hann] at h
      have step : ∀ (hrec : processParams cc vet ns rest (acc.insert a.arg td) = .ok d),
          d.keys = acc.keys ++ ((a, dflt) :: rest).map (fun p => p.1.arg) := by
        intro hrec
        have hkeys := ih (acc.insert a.arg td) d hrec
        rw [ODict.keys_insert_of_not_contains acc a.arg td
          (Bool.eq_false_iff.mpr h2)] at hkeys
        rw [hkeys]
        simp
      cases dflt with
      | none => exact step h
      | some value =>
        simp only at h
        by_cases h5 : cc value = true
        · rw [if_neg (by simp [h5])] at h
          by_cases h6 : vet (.node value) (.typeRef td) = true
          · rw [if_neg (by simp [h6])] at h
            exact step h
          · rw [if_pos (by simp [h6])] at h
            exact Except.noConfusion h
        · rw [if_pos (by simp [h5])] at h
          exact Except.noConfusion h

lemma from_FunctionDef_inversion (cc : ExprNode → Bool) (vet : VObj → VObj → Bool)
    (ns : NamespaceEnv) (node : FunctionDef) (ii ip : Option Bool) (incl : Bool)
    (f : ContractFunctionType)
    (h : ContractFunctionType.from_FunctionDef cc vet ns node ii ip incl = .ok f) :
    ∃ kw vis args_d rt,
      processDecorators node.decorator_list (initialKwargs ii ip) = .ok kw
      ∧ kw.function_visibility = some vis
      ∧ processParams cc vet ns
          (node.args.args.zip (if incl then
              List.replicate (node.args.args.length - node.args.defaults.length) none
                ++ node.args.defaults.map some
            else List.replicate node.args.args.length none)) ODict.empty = .ok args_d
      ∧ resolveReturns node.returns = .ok rt
      ∧ f = ContractFunctionType.init node.name args_d
          (if node.args.defaults.isEmpty then ArgCount.exact node.args.args.length
            else ArgCount.range (node.args.args.length - node.args.defaults.length)
              node.args.args.length)
          rt vis
          (match kw.state_mutability with
            | some m => m
            | none => StateMutability.NONPAYABLE)
          kw.nonreentrant := by
  unfold ContractFunctionType.from_FunctionDef at h
  cases hpd : processDecorators node.decorator_list (initialKwargs ii ip) with
  | error e => rw [hpd] at h; exact Except.noConfusion h
  | ok kw =>
    rw [hpd] at h
    simp only at h
    cases hv : kw.function_visibility with
    | none => rw [hv] at h; exact Except.noConfusion h
    | some vis =>
      rw [hv] at h
      simp only at h
      cases hpp : processParams cc vet ns
          (node.args.args.zip (if incl then
              List.replicate (node.args.args.length - node.args.defaults.length) none
                ++ node.args.defaults.map some
            else List.replicate node.args.args.length none)) ODict.empty with
      | error e => rw [hpp] at h; exact Except.noConfusion h
      | ok args_d =>
        rw [hpp] at h
        simp only at h
        cases hrr : resolveReturns node.returns with
        | error e => rw [hrr] at h; exact Except.noConfusion h
        | ok rt =>
          rw [hrr] at h
          simp only at h
          cases h
          exact ⟨kw, vis, args_d, rt, rfl, hv, rfl, rfl, rfl⟩

lemma fromFunctionDef_arity_facts (cc : ExprNode → Bool) (vet : VObj → VObj → Bool)
    (ns : NamespaceEnv) (node : FunctionDef) (ii ip : Option Bool) (incl : Bool)
    (f : ContractFunctionType) (n k : Nat)
    (hn : node.args.args.length = n) (hk : node.args.defaults.length = k)
    (hkn : k ≤ n)
    (hok : ContractFunctionType.from_FunctionDef cc vet ns node ii ip incl = .ok f) :
    (k = 0 → f.arg_count = ArgCount.exact n ∧ f.kwarg_keys = [])
    ∧ (0 < k → f.arg_count = ArgCount.range (n - k) n
        ∧ f.kwarg_keys = (node.args.args.map ArgNode.arg).drop (n - k)
        ∧ f.kwarg_keys.length = k) := by
  obtain ⟨kw, vis, args_d, rt, hpd, hv, hpp, hrr, hf⟩ :=
    from_FunctionDef_inversion cc vet ns node ii ip incl f hok
  have hkeys := processParams_keys cc vet ns _ _ _ hpp
  have hlen2 : (if incl then
      List.replicate (node.args.args.length - node.args.defaults.length)
        (none : Option ExprNode) ++ node.args.defaults.map some
    else List.replicate node.args.args.length none).length = n := by
    by_cases hi : incl
    · simp [hi, hn, hk]
      omega
    · simp [hi, hn]
  have hargs : args_d.keys = node.args.args.map ArgNode.arg := by
    rw [hkeys]
    have hfst : (node.args.args.zip (if incl then
        List.replicate (node.args.args.length - node.args.defaults.length)
          (none : Option ExprNode) ++ node.args.defaults.map some
      else List.replicate node.args.args.length none)).map Prod.fst
        = node.args.args :=
      List.map_fst_zip _ _ (by rw [hlen2, hn])
    rw [show (fun (p : ArgNode × Option ExprNode) => p.1.arg)
        = (ArgNode.arg ∘ Prod.fst) from rfl, ← List.map_map, hfst]
    simp [ODict.empty, ODict.keys]
  constructor
  · intro h0
    have hnil : node.args.defaults = [] := by
      rw [← List.length_eq_zero]
      omega
    subst hf
    simp [ContractFunctionType.init, hnil, hn]
  · intro hpos
    have hne : node.args.defaults.isEmpty = false := by
      cases hd : node.args.defaults with
      | nil => rw [hd] at hk; simp at hk; omega
      | cons a l => rfl
    subst hf
    refine ⟨by simp [ContractFunctionType.init, hne, hn, hk], ?_, ?_⟩
    · simp only [ContractFunctionType.init, hne, Bool.false_eq_true, if_false,
        hn, hk]
      rw [hargs]
    · simp only [ContractFunctionType.init, hne, Bool.false_eq_true, if_false,
        hn, hk]
      rw [hargs, List.length_drop, List.length_map, hn]
      omega

/-- C3: for a declaration with n parameters of which the trailing k
carry defaults, construction yields exact arity n and empty
`kwarg_keys` when k = 0, and arity `(n-k, n)` with `kwarg_keys` equal
to the last k parameter names in order when k > 0. -/
theorem C3_arity_kwarg_keys (cc : ExprNode → Bool) (vet : VObj → VObj → Bool)
    (ns : NamespaceEnv) (node : FunctionDef) (ii ip : Option Bool) (incl : Bool)
    (f : ContractFunctionType) (n k : Nat)
    (hn : node.args.args.length = n) (hk : node.args.defaults.length = k)
    (hkn : k ≤ n)
    (hok : ContractFunctionType.from_FunctionDef cc vet ns node ii ip incl = .ok f) :
    (k = 0 → f.arg_count = ArgCount.exact n ∧ f.kwarg_keys = [])
    ∧ (0 < k → f.arg_count = ArgCount.range (n - k) n
        ∧ f.kwarg_keys = (node.args.args.map ArgNode.arg).drop (n - k)
        ∧ f.kwarg_keys.length = k) :=
  fromFunctionDef_arity_facts cc vet ns node ii ip incl f n k hn hk hkn hok

def nodeC3 : FunctionDef :=
  ⟨"foo", [Decorator.name "private"],
   ⟨[⟨"x", some TypeRef.uint256⟩, ⟨"y", some TypeRef.uint256⟩], [⟨"d1"⟩]⟩, none⟩

def cftC3 : ContractFunctionType :=
  ContractFunctionType.init "foo"
    ⟨[("x", TypeRef.uint256), ("y", TypeRef.uint256)]⟩ (ArgCount.range 1 2)
    none FunctionVisibility.PRIVATE StateMutability.NONPAYABLE none

/-- C3 witness: a two-parameter declaration with one trailing default
gets arity (1, 2) and one keyword key. -/
theorem C3_arity_kwarg_keys_witness :
    cftC3.arg_count = ArgCount.range 1 2 ∧ cftC3.kwarg_keys.length = 1 :=
  have h := C3_arity_kwarg_keys (fun _ => true) (fun _ _ => true) ⟨[], []⟩
    nodeC3 none none true cftC3 2 1 rfl rfl (by decide) rfl
  ⟨(h.2 (by decide)).1, (h.2 (by decide)).2.2⟩

lemma processParams_ignores_validators (cc cc' : ExprNode → Bool)
    (vet vet' : VObj → VObj → Bool) (ns : NamespaceEnv) :
    ∀ (pairs : List (ArgNode × Option ExprNode)) (acc : ODict TypeRef),
    (∀ p ∈ pairs, p.2 = none) →
    processParams cc vet ns pairs acc = processParams cc' vet' ns pairs acc := by
  intro pairs
  induction pairs with
  | nil => intro acc _; rfl
  | cons p rest ih =>
    intro acc hall
    obtain ⟨a, dflt⟩ := p
    have hd : dflt = none := hall (a, dflt) (List.mem_cons_self _ _)
    subst hd
    rw [processParams, processParams]
    by_cases h1 : a.arg = "gas" ∨ a.arg = "value"
    · rw [if_pos h1, if_pos h1]
    rw [if_neg h1, if_neg h1]
    by_cases h2 : acc.contains a.arg = true
    · rw [if_pos h2, if_pos h2]
    rw [if_neg h2, if_neg h2]
    by_cases h3 : ns.self_members.contains a.arg = true
    · rw [if_pos h3, if_pos h3]
    rw [if_neg h3, if_neg h3]
    by_cases h4 : ns.names.contains a.arg = true
    · rw [if_pos h4, if_pos h4]
    rw [if_neg h4, if_neg h4]
    cases hann : a.ann with
    | none => rfl
    | some td =>
      simp only
      exact ih (acc.insert a.arg td)
        (fun p hp => hall p (List.mem_cons_of_mem _ hp))

/-- C9: with `include_defaults = False`, the default expressions are
never consulted — the result does not depend on the constant-check or
type-validation collaborators — and a declaration with k > 0 trailing
defaults out of n parameters still gets arity (n-k, n) and k keyword
keys. -/
theorem C9_signature_only_view (cc cc' : ExprNode → Bool)
    (vet vet' : VObj → VObj → Bool) (ns : NamespaceEnv) (node : FunctionDef)
    (ii ip : Option Bool) (f : ContractFunctionType) (n k : Nat)
    (hn : node.args.args.length = n) (hk : node.args.defaults.length = k)
    (hkpos : 0 < k) (hkn : k ≤ n)
    (hok : ContractFunctionType.from_FunctionDef cc vet ns node ii ip false = .ok f) :
    ContractFunctionType.from_FunctionDef cc' vet' ns node ii ip false
      = ContractFunctionType.from_FunctionDef cc vet ns node ii ip false
    ∧ f.arg_count = ArgCount.range (n - k) n
    ∧ f.kwarg_keys.length = k := by
  have hindep : ContractFunctionType.from_FunctionDef cc' vet' ns node ii ip false
      = ContractFunctionType.from_FunctionDef cc vet ns node ii ip false := by
    unfold ContractFunctionType.from_FunctionDef
    cases hpd : processDecorators node.decorator_list (initialKwargs ii ip) with
    | error e => rfl
    | ok kw =>
      simp only
      cases hv : kw.function_visibility with
      | none => rfl
      | some vis =>
        simp only
        rw [processParams_ignores_validators cc' cc vet' vet ns _ ODict.empty
          (by
            intro p hp
            have hmem := List.of_mem_zip hp
            simp only [Bool.false_eq_true, if_false] at hmem
            exact List.eq_of_mem_replicate hmem.2)]
  have harity := fromFunctionDef_arity_facts cc vet ns node ii ip false f n k hn hk hkn hok
  exact ⟨hindep, (harity.2 hkpos).1, (harity.2 hkpos).2.2⟩

/-- C9 witness: the signature-only view of the two-parameter
declaration with one default, computed with collaborators that reject
everything, equals the one computed with collaborators that accept
everything, and keeps arity (1, 2). -/
theorem C9_signature_only_view_witness :
    ContractFunctionType.from_FunctionDef (fun _ => false) (fun _ _ => false)
        ⟨[], []⟩ nodeC3 none none false
      = ContractFunctionType.from_FunctionDef (fun _ => true) (fun _ _ => true)
        ⟨[], []⟩ nodeC3 none none false
    ∧ cftC3.arg_count = ArgCount.range 1 2 :=
  have h := C9_signature_only_view (fun _ => true) (fun _ => false)
    (fun _ _ => true) (fun _ _ => false) ⟨[], []⟩ nodeC3 none none cftC3 2 1
    rfl rfl (by decide) (by decide) rfl
  ⟨h.1, h.2.1⟩

lemma vis_invalid_of_mut_valid (id : String)
    (h : StateMutability.is_valid_value id = true) :
    FunctionVisibility.is_valid_value id = false := by
  unfold StateMutability.is_valid_value StateMutability.fromRaw at h
  unfold FunctionVisibility.is_valid_value FunctionVisibility.fromRaw
  split_ifs at h ⊢ <;> simp_all

def payableViewNode : FunctionDef :=
  ⟨"foo", [Decorator.name "public", Decorator.name "payable", Decorator.name "view"],
   ⟨[], []⟩, none⟩

/-- C5: visibility, mutability and the reentrancy-lock key can each be
set at most once during construction — a second visibility decorator, a
second mutability decorator, or a second nonreentrant decorator raises
an error naming the previously set value instead of overwriting it; in
particular a declaration decorated with both `@payable` and `@view`
raises the duplicate-mutability error naming `payable`. -/
theorem C5_single_assignment :
    (∀ (kw : DecoKwargs) (rest : List Decorator) (id : String)
        (prev : FunctionVisibility),
      kw.function_visibility = some prev →
      FunctionVisibility.is_valid_value id = true →
      processDecorators (Decorator.name id :: rest) kw
        = .error (.FunctionDeclarationException
            ("Visibility is already set to: " ++ prev.toRaw)))
    ∧ (∀ (kw : DecoKwargs) (rest : List Decorator) (id : String)
        (prev : StateMutability),
      kw.state_mutability = some prev →
      StateMutability.is_valid_value id = true →
      processDecorators (Decorator.name id :: rest) kw
        = .error (.FunctionDeclarationException
            ("Mutability is already set to: " ++ prev.toRaw)))
    ∧ (∀ (kw : DecoKwargs) (rest : List Decorator) (fid : Option String)
        (dargs : List DecArg) (prev : String),
      kw.nonreentrant = some prev →
      processDecorators (Decorator.call fid dargs :: rest) kw
        = .error (.StructureException
            ("nonreentrant decorator is already set with key: " ++ prev)))
    ∧ (∀ (cc : ExprNode → Bool) (vet : VObj → VObj → Bool) (ns : NamespaceEnv),
      ContractFunctionType.from_FunctionDef cc vet ns payableViewNode none none true
        = .error (.FunctionDeclarationException
            "Mutability is already set to: payable")) := by
  refine ⟨?_, ?_, ?_, ?_⟩
  · intro kw rest id prev hprev hvalid
    rw [processDecorators, if_pos hvalid, hprev]
  · intro kw rest id prev hprev hvalid
    rw [processDecorators, if_neg (by simp [vis_invalid_of_mut_valid id hvalid]),
      if_pos hvalid, hprev]
  · intro kw rest fid dargs prev hprev
    simp only [processDecorators, hprev]
  · intro cc vet ns
    rfl

/-- C5 witness: each duplicate-setting rule applied at a concrete
already-set state, and the concrete `@payable` + `@view` declaration. -/
theorem C5_single_assignment_witness :
    processDecorators [Decorator.name "private"]
        ⟨none, some FunctionVisibility.PUBLIC, none⟩
      = .error (.FunctionDeclarationException "Visibility is already set to: public")
    ∧ processDecorators [Decorator.name "view"]
        ⟨some StateMutability.PAYABLE, none, none⟩
      = .error (.FunctionDeclarationException "Mutability is already set to: payable")
    ∧ processDecorators [Decorator.call (some "nonreentrant") [DecArg.str "lock"]]
        ⟨none, none, some "lock"⟩
      = .error (.StructureException
          "nonreentrant decorator is already set with key: lock")
    ∧ ContractFunctionType.from_FunctionDef (fun _ => true) (fun _ _ => true)
        ⟨[], []⟩ payableViewNode none none true
      = .error (.FunctionDeclarationException "Mutability is already set to: payable") :=
  ⟨C5_single_assignment.1 ⟨none, some FunctionVisibility.PUBLIC, none⟩ []
      "private" FunctionVisibility.PUBLIC rfl rfl,
   C5_single_assignment.2.1 ⟨some StateMutability.PAYABLE, none, none⟩ []
      "view" StateMutability.PAYABLE rfl rfl,
   C5_single_assignment.2.2.1 ⟨none, none, some "lock"⟩ []
      (some "nonreentrant") [DecArg.str "lock"] "lock" rfl,
   C5_single_assignment.2.2.2 (fun _ => true) (fun _ _ => true) ⟨[], []⟩⟩

/-- C8: after decorator processing, an unresolved visibility (set
neither by override flag nor by decorator) makes construction fail with
the visibility-must-be-declared error, while an unset mutability
defaults to nonpayable and construction proceeds. -/
theorem C8_visibility_required_mutability_default (cc : ExprNode → Bool)
    (vet : VObj → VObj → Bool) (ns : NamespaceEnv) (node : FunctionDef)
    (ii ip : Option Bool) (incl : Bool) (kw : DecoKwargs)
    (hpd : processDecorators node.decorator_list (initialKwargs ii ip) = .ok kw) :
    (kw.function_visibility = none →
      ContractFunctionType.from_FunctionDef cc vet ns node ii ip incl
        = .error (.FunctionDeclarationException
            "Visibility must be set to one of public or private"))
    ∧ (∀ (vis : FunctionVisibility) (f : ContractFunctionType),
      kw.function_visibility = some vis →
      kw.state_mutability = none →
      ContractFunctionType.from_FunctionDef cc vet ns node ii ip incl = .ok f →
      f.mutability = StateMutability.NONPAYABLE) := by
  constructor
  · intro hv
    unfold ContractFunctionType.from_FunctionDef
    rw [hpd]
    simp only
    rw [hv]
  · intro vis f hv hm hok
    obtain ⟨kw', vis', args_d, rt, hpd', hv', hpp, hrr, hf⟩ :=
      from_FunctionDef_inversion cc vet ns node ii ip incl f hok
    have hkw : kw' = kw := by
      rw [hpd] at hpd'
      exact (Except.ok.injEq _ _).mp hpd'.symm
    subst hkw
    subst hf
    simp only [ContractFunctionType.init, hm]

def noVisNode : FunctionDef :=
  ⟨"novis", [], ⟨[], []⟩, none⟩

def defaultMutNode : FunctionDef :=
  ⟨"defmut", [Decorator.name "public"], ⟨[], []⟩, none⟩

def cftC8 : ContractFunctionType :=
  ContractFunctionType.init "defmut" ⟨[]⟩ (ArgCount.exact 0) none
    FunctionVisibility.PUBLIC StateMutability.NONPAYABLE none

/-- C8 witness: a declaration with no decorators and no override flags
fails with the visibility error, and a `@public` declaration with no
mutability decorator comes out nonpayable. -/
theorem C8_visibility_required_mutability_default_witness :
    ContractFunctionType.from_FunctionDef (fun _ => true) (fun _ _ => true)
        ⟨[], []⟩ noVisNode none none true
      = .error (.FunctionDeclarationException
          "Visibility must be set to one of public or private")
    ∧ cftC8.mutability = StateMutability.NONPAYABLE :=
  ⟨(C8_visibility_required_mutability_default (fun _ => true) (fun _ _ => true)
      ⟨[], []⟩ noVisNode none none true ⟨none, none, none⟩ rfl).1 rfl,
   (C8_visibility_required_mutability_default (fun _ => true) (fun _ _ => true)
      ⟨[], []⟩ defaultMutNode none none true
      ⟨none, some FunctionVisibility.PUBLIC, none⟩ rfl).2
      FunctionVisibility.PUBLIC cftC8 rfl rfl rfl⟩

lemma checkKeywords_ok_gas_value (vet : VObj → VObj → Bool) :
    ∀ (kws : List KeywordNode) (u : Unit), checkKeywords vet kws = .ok u →
    ∀ kw ∈ kws, (kw.arg = "gas" ∨ kw.arg = "value") →
    vet (.node kw.value) (.typeRef TypeRef.uint256) = true := by
  intro kws
  induction kws with
  | nil => intro u _ kw hmem; simp at hmem
  | cons k0 rest ih =>
    intro u h kw hmem hgv
    rw [checkKeywords] at h
    by_cases h1 : k0.arg = "gas" ∨ k0.arg = "value"
    · rw [if_pos h1] at h
      by_cases h2 : vet (.node k0.value) (.typeRef TypeRef.uint256) = true
      · rw [if_pos h2] at h
        rcases List.mem_cons.mp hmem with hkw | hkw
        · subst hkw; exact h2
        · exact ih u h kw hkw hgv
      · rw [if_neg h2] at h
        exact Except.noConfusion h
    · rw [if_neg h1] at h
      by_cases h2 : vet (.nameToken k0.arg) (.node k0.value) = true
      · rw [if_pos h2] at h
        rcases List.mem_cons.mp hmem with hkw | hkw
        · subst hkw; exact absurd hgv h1
        · exact ih u h kw hkw hgv
      · rw [if_neg h2] at h
        exact Except.noConfusion h

/-- C4: an implicit-self call to a public function raises the
call-violation error; a call that is not through implicit self accepts
the keyword set widened by `gas` and `value`, and any supplied
`gas=`/`value=` keyword expression must pass validation against the
unsigned 256-bit integer type for the call to succeed. -/
theorem C4_public_self_call_and_external_kwargs :
    (∀ (vet : VObj → VObj → Bool) (f : ContractFunctionType) (node : CallNode),
      node.func_value_id = some "self" → f.visibility = FunctionVisibility.PUBLIC →
      ContractFunctionType.fetch_call_return vet f node
        = .error (.CallViolation "Cannnot call public functions via 'self'"))
    ∧ (∀ (f : ContractFunctionType) (node : CallNode),
      node.func_value_id ≠ some "self" →
      acceptedKwargKeys f node = f.kwarg_keys ++ ["gas", "value"])
    ∧ (∀ (vet : VObj → VObj → Bool) (f : ContractFunctionType) (node : CallNode)
        (r : Option TypeRef),
      ContractFunctionType.fetch_call_return vet f node = .ok r →
      ∀ kw ∈ node.keywords, (kw.arg = "gas" ∨ kw.arg = "value") →
      vet (.node kw.value) (.typeRef TypeRef.uint256) = true) := by
  refine ⟨?_, ?_, ?_⟩
  · intro vet f node h1 h2
    unfold ContractFunctionType.fetch_call_return
    rw [if_pos ⟨h1, h2⟩]
  · intro f node hne
    unfold acceptedKwargKeys
    rw [if_pos hne]
  · intro vet f node r hok kw hmem hgv
    unfold ContractFunctionType.fetch_call_return at hok
    by_cases hc : node.func_value_id = some "self"
        ∧ f.visibility = FunctionVisibility.PUBLIC
    · rw [if_pos hc] at hok; exact Except.noConfusion hok
    rw [if_neg hc] at hok
    cases hvca : validate_call_args node f.arg_count (acceptedKwargKeys f node) with
    | error e => rw [hvca] at hok; exact Except.noConfusion hok
    | ok u =>
      rw [hvca] at hok
      simp only at hok
      cases hcp : checkPositional vet (node.args.zip f.arguments.values) with
      | error e => rw [hcp] at hok; exact Except.noConfusion hok
      | ok u2 =>
        rw [hcp] at hok
        simp only at hok
        cases hck : checkKeywords vet node.keywords with
        | error e => rw [hck] at hok; exact Except.noConfusion hok
        | ok u3 => exact checkKeywords_ok_gas_value vet node.keywords u3 hck kw hmem hgv

def fPubC4 : ContractFunctionType :=
  ContractFunctionType.init "p" ⟨[]⟩ (ArgCount.exact 0) none
    FunctionVisibility.PUBLIC StateMutability.NONPAYABLE none

def selfNodeC4 : CallNode := ⟨some "self", [], []⟩

def extNodeC4 : CallNode := ⟨none, [], []⟩

def gasNodeC4 : CallNode := ⟨none, [], [⟨"gas", ⟨"g"⟩⟩]⟩

/-- C4 witness: the three parts applied at a public zero-argument
function — the implicit-self call errors, the external call accepts
gas and value, and a successful external call with a gas keyword has
validated it against the 256-bit unsigned type. -/
theorem C4_public_self_call_and_external_kwargs_witness :
    ContractFunctionType.fetch_call_return (fun _ _ => true) fPubC4 selfNodeC4
      = .error (.CallViolation "Cannnot call public functions via 'self'")
    ∧ acceptedKwargKeys fPubC4 extNodeC4 = ["gas", "value"]
    ∧ (fun _ _ => true : VObj → VObj → Bool)
        (.node ⟨"g"⟩) (.typeRef TypeRef.uint256) = true :=
  ⟨C4_public_self_call_and_external_kwargs.1 (fun _ _ => true) fPubC4 selfNodeC4
      rfl rfl,
   C4_public_self_call_and_external_kwargs.2.1 fPubC4 extNodeC4 (by decide),
   C4_public_self_call_and_external_kwargs.2.2 (fun _ _ => true) fPubC4
      gasNodeC4 none rfl ⟨"gas", ⟨"g"⟩⟩ (List.mem_singleton.mpr rfl) (Or.inl rfl)⟩

def eC1 : ExprNode := ⟨"one"⟩

def fC1 : ContractFunctionType :=
  ContractFunctionType.init "foo" ⟨[("x", TypeRef.uint256)]⟩ (ArgCount.range 0 1)
    none FunctionVisibility.PUBLIC StateMutability.NONPAYABLE none

def extCallC1 : CallNode := ⟨some "other", [], [⟨"x", eC1⟩]⟩

def vetRejectC1 : VObj → VObj → Bool := fun _ _ => false

/-- C1: on an external call supplying the keyword argument `x = eC1` to
a function whose parameter `x` is declared uint256, the source's
keyword loop hands `validate_expected_type` the keyword's *name token*
paired with the value expression (witnessed by the mismatch error it
propagates under a rejecting validator), whereas the spec's wording —
look the name up in `arguments` and validate the value expression
against the declared uint256 — produces the properly paired
validation. The claim describes the lookup behaviour; the code does
not implement it. -/
theorem C1_keyword_validation_swapped :
    ContractFunctionType.fetch_call_return vetRejectC1 fC1 extCallC1
      = .error (.TypeMismatch (.nameToken "x") (.node eC1))
    ∧ fetchCallReturnSpec vetRejectC1 fC1 extCallC1
      = .error (.TypeMismatch (.node eC1) (.typeRef TypeRef.uint256)) :=
  ⟨rfl, rfl⟩

/-- The decimal character list of a natural number, as produced by the
core numeral printer with just enough fuel. -/
def decChars (n : Nat) : List Char := Nat.toDigitsCore 10 (n + 1) n []

lemma toDigitsCore_succ (b f n : Nat) (l : List Char) :
    Nat.toDigitsCore b (f + 1) n l
      = if n / b = 0 then Nat.digitChar (n % b) :: l
        else Nat.toDigitsCore b f (n / b) (Nat.digitChar (n % b) :: l) := rfl

lemma toDigitsCore_eq_decChars (n : Nat) : ∀ (f : Nat) (l : List Char), n < f →
    Nat.toDigitsCore 10 f n l = decChars n ++ l := by
  induction' n using Nat.strong_induction_on with n ih
  intro f l hf
  match f with
  | 0 => omega
  | f' + 1 =>
    rw [toDigitsCore_succ]
    by_cases hz : n / 10 = 0
    · rw [if_pos hz]
      have hdc : decChars n = [Nat.digitChar (n % 10)] := by
        unfold decChars
        rw [toDigitsCore_succ, if_pos hz]
      rw [hdc]
      rfl
    · rw [if_neg hz]
      have hn0 : 0 < n := by
        rcases Nat.eq_zero_or_pos n with h0 | h0
        · exact absurd (by rw [h0]) hz
        · exact h0
      have hdiv : n / 10 < n := Nat.div_lt_self hn0 (by omega)
      have h1 := ih (n / 10) hdiv f' (Nat.digitChar (n % 10) :: l) (by omega)
      have h2 : decChars n = decChars (n / 10) ++ [Nat.digitChar (n % 10)] := by
        unfold decChars
        rw [toDigitsCore_succ, if_neg hz]
        exact ih (n / 10) hdiv n [Nat.digitChar (n % 10)] (by omega)
      rw [h1, h2, List.append_assoc]
      rfl

lemma decChars_eq (n : Nat) :
    decChars n = if n < 10 then [Nat.digitChar n]
      else decChars (n / 10) ++ [Nat.digitChar (n % 10)] := by
  by_cases h : n < 10
  · rw [if_pos h]
    unfold decChars
    rw [toDigitsCore_succ, if_pos (Nat.div_eq_of_lt h), Nat.mod_eq_of_lt h]
  · rw [if_neg h]
    unfold decChars
    have hz : n / 10 ≠ 0 := by
      intro h0
      have h10 : 10 ≤ n := Nat.not_lt.mp h
      have := Nat.div_le_div_right (c := 10) h10
      simp [h0] at this
    rw [toDigitsCore_succ, if_neg hz]
    exact toDigitsCore_eq_decChars (n / 10) n _
      (Nat.div_lt_self (by omega) (by omega))

lemma decChars_ne_nil (n : Nat) : decChars n ≠ [] := by
  rw [decChars_eq]
  by_cases h : n < 10 <;> simp [h]

lemma digitChar_inj_lt : ∀ m, m < 10 → ∀ k, k < 10 →
    Nat.digitChar m = Nat.digitChar k → m = k := by decide

lemma decChars_inj (m : Nat) : ∀ (k : Nat), decChars m = decChars k → m = k := by
  induction' m using Nat.strong_induction_on with m ih
  intro k h
  rw [decChars_eq m, decChars_eq k] at h
  by_cases hm : m < 10 <;> by_cases hk : k < 10
  · rw [if_pos hm, if_pos hk] at h
    injection h with h1 _
    exact digitChar_inj_lt m hm k hk h1
  · rw [if_pos hm, if_neg hk] at h
    exfalso
    have hlen := congrArg List.length h
    simp only [List.length_singleton, List.length_append] at hlen
    have hz : (decChars (k / 10)).length = 0 := by omega
    exact decChars_ne_nil (k / 10) (List.length_eq_zero.mp hz)
  · rw [if_neg hm, if_pos hk] at h
    exfalso
    have hlen := congrArg List.length h.symm
    simp only [List.length_singleton, List.length_append] at hlen
    have hz : (decChars (m / 10)).length = 0 := by omega
    exact decChars_ne_nil (m / 10) (List.length_eq_zero.mp hz)
  · rw [if_neg hm, if_neg hk] at h
    obtain ⟨h1, h2⟩ := List.append_inj' h (by simp)
    injection h2 with h2' _
    have hd : m / 10 = k / 10 :=
      ih (m / 10) (Nat.div_lt_self (by omega) (by omega)) (k / 10) h1
    have hmod : m % 10 = k % 10 :=
      digitChar_inj_lt (m % 10) (Nat.mod_lt _ (by omega)) (k % 10)
        (Nat.mod_lt _ (by omega)) h2'
    omega

lemma nat_repr_inj (m k : Nat) (h : Nat.repr m = Nat.repr k) : m = k := by
  have hdata : decChars m = decChars k := by
    have hd := congrArg String.data h
    simpa [Nat.repr, Nat.toDigits, List.asString, decChars] using hd
  exact decChars_inj m k hdata

/-- The generated positional name of an accessor argument: `arg` plus
the decimal index. -/
def accessorArgName (i : Nat) : String := "arg" ++ Nat.repr i

lemma accessorArgName_inj (i j : Nat) (h : accessorArgName i = accessorArgName j) :
    i = j := by
  unfold accessorArgName at h
  have hdata := congrArg String.data h
  simp only [String.data_append] at hdata
  have hrepr : Nat.repr i = Nat.repr j := by
    apply String.ext
    exact List.append_cancel_left hdata
  exact nat_repr_inj i j hrepr

lemma buildAccessorArgs_keys : ∀ (ts : List TypeRef) (d : ODict TypeRef) (k : Nat),
    d.keys = (List.range k).map accessorArgName →
    (buildAccessorArgs ts d).keys = (List.range (k + ts.length)).map accessorArgName := by
  intro ts
  induction ts with
  | nil =>
    intro d k h
    rw [buildAccessorArgs]
    simpa using h
  | cons t rest ih =>
    intro d k h
    rw [buildAccessorArgs]
    have hsize : d.size = k := by
      have hlen : d.keys.length = k := by rw [h]; simp
      simpa [ODict.size, ODict.keys] using hlen
    have hfresh : d.contains (accessorArgName k) = false := by
      rw [Bool.eq_false_iff]
      intro hc
      have hm := (ODict.contains_iff_mem_keys d _).mp hc
      rw [h] at hm
      obtain ⟨i, hi, he⟩ := List.mem_map.mp hm
      have hik : i = k := accessorArgName_inj i k he
      rw [List.mem_range] at hi
      omega
    have hkey : ("arg" ++ Nat.repr d.size) = accessorArgName k := by
      rw [hsize]; rfl
    rw [hkey]
    have hkeys' : (d.insert (accessorArgName k) t).keys
        = (List.range (k + 1)).map accessorArgName := by
      rw [ODict.keys_insert_of_not_contains d _ t hfresh, h, List.range_succ,
        List.map_append]
      rfl
    rw [ih (d.insert (accessorArgName k) t) (k + 1) hkeys']
    congr 2
    simp
    omega

/-- C7: an accessor synthesized for a public state variable whose type
reports n argument types has argument names exactly arg0 .. arg(n-1)
in declaration order, exact arity n, public visibility, nonpayable
mutability, no reentrancy lock, and the variable's name and the
signature's return type. -/
theorem C7_accessor_shape (node : AnnAssign) (f : ContractFunctionType)
    (h : ContractFunctionType.from_AnnAssign node = .ok f) :
    f.arguments.keys = (List.range node.sig_args.length).map accessorArgName
    ∧ f.arg_count = ArgCount.exact node.sig_args.length
    ∧ f.visibility = FunctionVisibility.PUBLIC
    ∧ f.mutability = StateMutability.NONPAYABLE
    ∧ f.nonreentrant = none
    ∧ f.name = node.target_id
    ∧ f.return_type = node.sig_ret := by
  unfold ContractFunctionType.from_AnnAssign at h
  by_cases hic : node.isCall
  · rw [if_neg (not_not_intro hic)] at h
    cases h
    refine ⟨?_, rfl, rfl, rfl, rfl, rfl, rfl⟩
    have hb := buildAccessorArgs_keys node.sig_args ODict.empty 0 (by rfl)
    show (buildAccessorArgs node.sig_args ODict.empty).keys = _
    rw [hb, Nat.zero_add]
  · rw [if_pos hic] at h
    exact Except.noConfusion h

def annC7 : AnnAssign :=
  ⟨"owner_map", true, [TypeRef.uint256, TypeRef.other "addr"], some TypeRef.uint256⟩

def cftC7 : ContractFunctionType :=
  ContractFunctionType.init "owner_map"
    ⟨[("arg0", TypeRef.uint256), ("arg1", TypeRef.other "addr")]⟩
    (ArgCount.exact 2) (some TypeRef.uint256)
    FunctionVisibility.PUBLIC StateMutability.NONPAYABLE none

/-- C7 witness: a two-argument signature gives the names arg0, arg1,
exact arity 2, public nonpayable, no lock, the variable's name. -/
theorem C7_accessor_shape_witness :
    cftC7.arguments.keys = (List.range 2).map accessorArgName
    ∧ cftC7.arg_count = ArgCount.exact 2
    ∧ cftC7.name = "owner_map" :=
  have h := C7_accessor_shape annC7 cftC7 rfl
  ⟨h.1, h.2.1, h.2.2.2.2.2.1⟩
